import Mathlib

/-!
Verification development for the DBG::out asynchronous logger
(DBG_out.hpp / DBG_out.cpp).

The embedding is a shallow state-machine model: the shared state of the
`DBG::out` object is a record, each public member function becomes a pure
state transformer, and one iteration of the worker loop `outputThread`
becomes a step function that either observes a stop request, processes the
head of the queue (returning the strings written to each sink), or blocks
(returns none, modelling the condition-variable wait).

Modelling notes, each taken from the source:
- std::queue push/front/pop is a Lean List with push appending at the tail
  and the worker taking the head.
- The timestamp formatter getTimestamp is an external collaborator; it is
  passed in as an opaque function ts : Nat -> String over an abstract
  time-point (Nat).
- The payload string is the caller's arguments already rendered by the
  stringstream; it enters the model as a single String.
- mDisable and mVerbosity are declared std::atomic but never appear in the
  constructor's initializer list, so their initial values are indeterminate;
  the model takes them as parameters of the constructor.
- The verbosity accessors uint8_t verbosity() / void verbosity(size_t) are
  declared in DBG_out.hpp but never defined in DBG_out.cpp, and the
  container constructor defined in DBG_out.cpp takes 8 arguments while the
  header declares 9 (with _verbosity); outputThread never reads mVerbosity
  or c->verbosity. The container record keeps the verbosity field the
  header declares (it is what the enqueue templates pass).
-/

namespace DBG

/-- One queued message, mirroring DBG::out::container (DBG_out.hpp). -/
structure container where
  str : String
  printTimestamp : Bool
  printLocation : Bool
  os : Bool
  ofs : Bool
  time : Nat
  line : Int
  file : String
  function : String
  verbosity : Nat
deriving DecidableEq, Repr

/-- The shared state of a DBG::out object: the atomic flags, the log file
stream (modelled by whether it is open), the stop flag and the message
queue. -/
structure out where
  mEnable : Bool
  mEnableOS : Bool
  mEnableOFS : Bool
  mDisable : Bool
  mLogFilename : String
  mDefaultTimestamp : Bool
  mDefaultLocation : Bool
  mFlush : Bool
  mNewline : Bool
  mVerbosity : Nat
  ofsOpen : Bool
  mStop : Bool
  mMessages : List container
deriving DecidableEq, Repr

/-- The constructor out::out (DBG_out.cpp lines 89-113). openOK records
whether opening the log file succeeded; d and v are the indeterminate
initial values of the uninitialized atomics mDisable and mVerbosity.
mLogFilename is a default-constructed std::string, hence empty. -/
def out.construct (openOK d : Bool) (v : Nat) : out where
  mEnable := false
  mEnableOS := false
  mEnableOFS := false
  mDisable := d
  mLogFilename := ""
  mDefaultTimestamp := true
  mDefaultLocation := true
  mFlush := true
  mNewline := false
  mVerbosity := v
  ofsOpen := openOK
  mStop := false
  mMessages := []

/-- out::enabled. -/
def out.enabled (s : out) : Bool := s.mEnable

/-- out::enable. -/
def out.enable (s : out) (aEnable : Bool) : out := { s with mEnable := aEnable }

/-- out::disable. -/
def out.disable (s : out) : out := { s with mEnable := false }

/-- out::shutdown (DBG_out.cpp lines 156-177): sets mStop, sets mDisable,
joins the worker, deletes every queued message, closes the file. -/
def out.shutdown (s : out) : out :=
  { s with mStop := true, mDisable := true, mMessages := [], ofsOpen := false }

/-- out::osEnabled. -/
def out.osEnabled (s : out) : Bool := s.mEnableOS

/-- out::osEnable. -/
def out.osEnable (s : out) (aEnable : Bool) : out := { s with mEnableOS := aEnable }

/-- out::osDisable. -/
def out.osDisable (s : out) : out := { s with mEnableOS := false }

/-- out::ofsEnabled (DBG_out.cpp lines 198-201): mEnableOFS and the file
being open. -/
def out.ofsEnabled (s : out) : Bool := s.mEnableOFS && s.ofsOpen

/-- out::ofsEnable (DBG_out.cpp lines 204-207): mEnableOFS becomes
aEnable and file-open. -/
def out.ofsEnable (s : out) (aEnable : Bool) : out :=
  { s with mEnableOFS := aEnable && s.ofsOpen }

/-- out::ofsDisable. -/
def out.ofsDisable (s : out) : out := { s with mEnableOFS := false }

/-- out::getLogFilename (DBG_out.cpp lines 216-219): clears mEnableOFS and
returns the stored filename. -/
def out.getLogFilename (s : out) : String × out :=
  (s.mLogFilename, { s with mEnableOFS := false })

/-- out::flush. -/
def out.flush (s : out) (aFlush : Bool) : out := { s with mFlush := aFlush }

/-- out::newline. -/
def out.newline (s : out) (aNewline : Bool) : out := { s with mNewline := aNewline }

/-- out::print (DBG_out.hpp lines 120-138): no-op when mDisable, otherwise
pushes a container with the default timestamp/location flags, os and ofs
both true. now is the time point captured by the container constructor. -/
def out.print (s : out) (line : Int) (file function txt : String)
    (verb now : Nat) : out :=
  if s.mDisable then s
  else { s with mMessages := s.mMessages ++
    [⟨txt, s.mDefaultTimestamp, s.mDefaultLocation, true, true, now,
      line, file, function, verb⟩] }

/-- out::printf (DBG_out.hpp lines 145-162): like print but os false. -/
def out.printf (s : out) (line : Int) (file function txt : String)
    (verb now : Nat) : out :=
  if s.mDisable then s
  else { s with mMessages := s.mMessages ++
    [⟨txt, s.mDefaultTimestamp, s.mDefaultLocation, false, true, now,
      line, file, function, verb⟩] }

/-- out::write (DBG_out.hpp lines 170-194): all flags caller-controlled. -/
def out.write (s : out) (line : Int) (file function : String)
    (pTimestamp pLocation os ofs : Bool) (txt : String)
    (verb now : Nat) : out :=
  if s.mDisable then s
  else { s with mMessages := s.mMessages ++
    [⟨txt, pTimestamp, pLocation, os, ofs, now, line, file, function, verb⟩] }

/-- out::remainingMessages. -/
def out.remainingMessages (s : out) : Nat := s.mMessages.length

/-- The string built by one iteration of outputThread (DBG_out.cpp lines
254-270), by the same sequence of appends: optional timestamp segment,
optional location segment, payload, optional newline per mNewline. -/
def out.render (ts : Nat → String) (s : out) (c : container) : String :=
  let outputStr := ""
  let outputStr :=
    if c.printTimestamp = true then outputStr ++ ts c.time ++ " - " else outputStr
  let outputStr :=
    if c.printLocation = true then
      outputStr ++ c.file ++ ":" ++ c.function ++ ":" ++ toString c.line ++ "\t - "
    else outputStr
  let outputStr := outputStr ++ c.str
  if s.mNewline then outputStr ++ "\n" else outputStr

/-- The observable outcome of one worker iteration: a stop request ends the
loop, or one message is processed with the strings written to the console
(std::cerr) and to the file, and the successor state after the pop. -/
inductive StepResult where
  | stopped : StepResult
  | processed (c : container) (consoleOut fileOut : Option String)
      (next : out) : StepResult
deriving DecidableEq, Repr

/-- One iteration of out::outputThread (DBG_out.cpp lines 234-295). The
condition wait admits the iteration only when mStop, or mEnable with a
non-empty queue; otherwise the worker stays blocked (none). On mStop the
worker returns at once. Otherwise it takes the front message, renders it,
writes to std::cerr when the message's os flag and mEnableOS hold, writes
to the file when the message's ofs flag, mEnableOFS and an open file hold,
then pops the message. -/
def out.workerStep (ts : Nat → String) (s : out) : Option StepResult :=
  if s.mStop then some StepResult.stopped
  else if s.mEnable then
    match s.mMessages with
    | [] => none
    | c :: rest =>
      let outputStr := out.render ts s c
      some (StepResult.processed c
        (if c.os && s.mEnableOS then some outputStr else none)
        (if c.ofs && s.mEnableOFS && s.ofsOpen then some outputStr else none)
        { s with mMessages := rest })
  else none

/-- The string a worker iteration wrote to the console, if any. -/
def stepConsole : Option StepResult → Option String
  | some (StepResult.processed _ co _ _) => co
  | _ => none

/-- The string a worker iteration wrote to the file, if any. -/
def stepFile : Option StepResult → Option String
  | some (StepResult.processed _ _ fo _) => fo
  | _ => none

/-- The state after a worker iteration that processed a message. -/
def stepNext : Option StepResult → Option out
  | some (StepResult.processed _ _ _ next) => some next
  | _ => none

/-- Runs worker iterations (with no interleaved producer or control calls)
and collects the processed messages in order, up to the given fuel. -/
def out.drain (ts : Nat → String) : Nat → out → List container
  | 0, _ => []
  | Nat.succ n, s =>
    match out.workerStep ts s with
    | some (StepResult.processed c _ _ next) => c :: out.drain ts n next
    | _ => []

/-- States reachable from construction by the public operations and by
worker iterations. The verbosity setter is not listed: it is declared in
DBG_out.hpp but no definition exists in DBG_out.cpp. -/
inductive Reachable : out → Prop where
  | construct (openOK d : Bool) (v : Nat) : Reachable (out.construct openOK d v)
  | enable (s : out) (b : Bool) : Reachable s → Reachable (out.enable s b)
  | disable (s : out) : Reachable s → Reachable (out.disable s)
  | shutdown (s : out) : Reachable s → Reachable (out.shutdown s)
  | osEnable (s : out) (b : Bool) : Reachable s → Reachable (out.osEnable s b)
  | osDisable (s : out) : Reachable s → Reachable (out.osDisable s)
  | ofsEnable (s : out) (b : Bool) : Reachable s → Reachable (out.ofsEnable s b)
  | ofsDisable (s : out) : Reachable s → Reachable (out.ofsDisable s)
  | getLogFilename (s : out) :
      Reachable s → Reachable (out.getLogFilename s).snd
  | flush (s : out) (b : Bool) : Reachable s → Reachable (out.flush s b)
  | newline (s : out) (b : Bool) : Reachable s → Reachable (out.newline s b)
  | print (s : out) (line : Int) (file function txt : String) (verb now : Nat) :
      Reachable s → Reachable (out.print s line file function txt verb now)
  | printf (s : out) (line : Int) (file function txt : String) (verb now : Nat) :
      Reachable s → Reachable (out.printf s line file function txt verb now)
  | write (s : out) (line : Int) (file function : String)
      (pT pL os ofs : Bool) (txt : String) (verb now : Nat) :
      Reachable s →
      Reachable (out.write s line file function pT pL os ofs txt verb now)
  | worker (ts : Nat → String) (s s' : out) (c : container)
      (co fo : Option String) :
      out.workerStep ts s = some (StepResult.processed c co fo s') →
      Reachable s → Reachable s'

/-- A message whose verbosity (5) exceeds the configured threshold (0). -/
def verbosityBugMsg : container where
  str := "hello"
  printTimestamp := false
  printLocation := false
  os := true
  ofs := false
  time := 0
  line := 1
  file := "a.cpp"
  function := "f"
  verbosity := 5

/-- A logger state with verbosity threshold 0, enabled, console sink
enabled, and verbosityBugMsg queued. -/
def verbosityBugState : out where
  mEnable := true
  mEnableOS := true
  mEnableOFS := false
  mDisable := false
  mLogFilename := ""
  mDefaultTimestamp := true
  mDefaultLocation := true
  mFlush := true
  mNewline := false
  mVerbosity := 0
  ofsOpen := false
  mStop := false
  mMessages := [verbosityBugMsg]

/-- Two messages used to exercise FIFO processing. -/
def fifoMsgA : container :=
  ⟨"A", false, false, true, true, 0, 1, "f.cpp", "g", 0⟩

/-- Second FIFO message. -/
def fifoMsgB : container :=
  ⟨"B", false, false, true, true, 0, 2, "f.cpp", "g", 0⟩

/-- An enabled, running logger state with two queued messages. -/
def fifoState : out where
  mEnable := true
  mEnableOS := true
  mEnableOFS := false
  mDisable := false
  mLogFilename := ""
  mDefaultTimestamp := true
  mDefaultLocation := true
  mFlush := true
  mNewline := false
  mVerbosity := 0
  ofsOpen := false
  mStop := false
  mMessages := [fifoMsgA, fifoMsgB]

/-- A message with toConsole true and toFile false (spec scenario B). -/
def sinkMsg : container :=
  ⟨"m", false, false, true, false, 0, 7, "s.cpp", "h", 0⟩

/-- A state where only the file sink is enabled (with an open file), with
sinkMsg queued: the C3 scenario in which nothing is written anywhere. -/
def sinkState : out where
  mEnable := true
  mEnableOS := false
  mEnableOFS := true
  mDisable := false
  mLogFilename := ""
  mDefaultTimestamp := true
  mDefaultLocation := true
  mFlush := true
  mNewline := false
  mVerbosity := 0
  ofsOpen := true
  mStop := false
  mMessages := [sinkMsg]

/-- A message carrying all rendering segments. -/
def renderMsg : container :=
  ⟨"payload", true, true, true, true, 42, 17, "r.cpp", "foo", 0⟩

/-- An enabled state with newline policy on and renderMsg queued. -/
def renderState : out where
  mEnable := true
  mEnableOS := true
  mEnableOFS := false
  mDisable := false
  mLogFilename := ""
  mDefaultTimestamp := true
  mDefaultLocation := true
  mFlush := true
  mNewline := true
  mVerbosity := 0
  ofsOpen := false
  mStop := false
  mMessages := [renderMsg]

/-- A state with a stop request raised while messages are still queued and
the logger is enabled. -/
def stopState : out where
  mEnable := true
  mEnableOS := true
  mEnableOFS := true
  mDisable := false
  mLogFilename := ""
  mDefaultTimestamp := true
  mDefaultLocation := true
  mFlush := true
  mNewline := false
  mVerbosity := 0
  ofsOpen := true
  mStop := true
  mMessages := [fifoMsgA, fifoMsgB, sinkMsg, renderMsg, verbosityBugMsg]

/-- A worker iteration that processed a message only pops the queue: the
processed message was the head and every other field is unchanged. -/
theorem workerStep_next (ts : Nat → String) (s s' : out) (c : container)
    (co fo : Option String)
    (h : out.workerStep ts s = some (StepResult.processed c co fo s')) :
    ∃ rest, s.mMessages = c :: rest ∧ s' = { s with mMessages := rest } := by
  unfold out.workerStep at h
  split at h
  · exact absurd (Option.some.inj h) (by simp)
  · split at h
    · cases hq : s.mMessages with
      | nil => rw [hq] at h; exact absurd h (by simp)
      | cons c0 rest =>
        rw [hq] at h
        injection h with h
        injection h with hc hco hfo hs2
        subst hc
        exact ⟨rest, rfl, hs2.symm⟩
    · exact absurd h (by simp)

/-- When no stop is pending, the logger is enabled and the queue is
non-empty, the worker processes exactly the head message, gating each sink
write on the message's destination flag and the sink's enable state. -/
theorem workerStep_processing (ts : Nat → String) (s : out) (c : container)
    (rest : List container) (hstop : s.mStop = false) (hen : s.mEnable = true)
    (hq : s.mMessages = c :: rest) :
    out.workerStep ts s = some (StepResult.processed c
      (if c.os && s.mEnableOS then some (out.render ts s c) else none)
      (if c.ofs && s.mEnableOFS && s.ofsOpen then some (out.render ts s c)
        else none)
      { s with mMessages := rest }) := by
  unfold out.workerStep
  rw [hstop, hen, hq]
  simp

/-- mLogFilename is never assigned: it is the default-constructed empty
string in every reachable state. -/
theorem reachable_logFilename (s : out) (h : Reachable s) :
    s.mLogFilename = "" := by
  induction h with
  | construct openOK d v => rfl
  | enable s b _ ih => exact ih
  | disable s _ ih => exact ih
  | shutdown s _ ih => exact ih
  | osEnable s b _ ih => exact ih
  | osDisable s _ ih => exact ih
  | ofsEnable s b _ ih => exact ih
  | ofsDisable s _ ih => exact ih
  | getLogFilename s _ ih => exact ih
  | flush s b _ ih => exact ih
  | newline s b _ ih => exact ih
  | print s line file function txt verb now _ ih =>
      unfold out.print; split <;> simpa using ih
  | printf s line file function txt verb now _ ih =>
      unfold out.printf; split <;> simpa using ih
  | write s line file function pT pL os ofs txt verb now _ ih =>
      unfold out.write; split <;> simpa using ih
  | worker ts s s' c co fo hstep _ ih =>
      obtain ⟨rest, _, hnext⟩ := workerStep_next ts s s' c co fo hstep
      rw [hnext]; exact ih

/-- Running the worker alone over a queue of length n processes exactly the
queued messages, head first. -/
theorem drain_eq (ts : Nat → String) (q : List container) :
    ∀ s : out, s.mMessages = q → s.mStop = false → s.mEnable = true →
      out.drain ts q.length s = q := by
  induction q with
  | nil =>
      intro s hq hstop hen
      simp [out.drain]
  | cons c rest ih =>
      intro s hq hstop hen
      have hstep := workerStep_processing ts s c rest hstop hen hq
      simp only [List.length_cons, out.drain, hstep]
      have := ih { s with mMessages := rest } rfl hstop hen
      rw [this]

/-- C1: the claim and the spec require a message with verbosity v to be
discarded when the threshold t satisfies t < v, but outputThread contains
no verbosity comparison at all: here the threshold is 0 and the message's
verbosity is 5, yet the worker delivers the message to the console. The
header declares the verbosity accessors and the per-message verbosity
field, so the filter is clearly intended and the code omits it. -/
theorem c1_verbosity_filter_missing :
    verbosityBugState.mVerbosity < verbosityBugMsg.verbosity
    ∧ out.workerStep (fun _ => "") verbosityBugState
        = some (StepResult.processed verbosityBugMsg (some "hello") none
            { verbosityBugState with mMessages := [] }) := by
  exact ⟨by decide, rfl⟩

/-- C2: enqueue operations (print, printf, write) always append to the
tail of the queue, and a worker running alone processes the queue from the
head, so processing order equals enqueue order (FIFO). -/
theorem c2_fifo (ts : Nat → String) (s : out) (hstop : s.mStop = false)
    (hen : s.mEnable = true) (line : Int) (file function txt : String)
    (verb now : Nat) (pT pL os ofs : Bool) :
    out.drain ts s.mMessages.length s = s.mMessages
    ∧ (s.mDisable = false →
        (out.print s line file function txt verb now).mMessages
          = s.mMessages ++ [⟨txt, s.mDefaultTimestamp, s.mDefaultLocation,
              true, true, now, line, file, function, verb⟩])
    ∧ (s.mDisable = false →
        (out.printf s line file function txt verb now).mMessages
          = s.mMessages ++ [⟨txt, s.mDefaultTimestamp, s.mDefaultLocation,
              false, true, now, line, file, function, verb⟩])
    ∧ (s.mDisable = false →
        (out.write s line file function pT pL os ofs txt verb now).mMessages
          = s.mMessages ++ [⟨txt, pT, pL, os, ofs, now,
              line, file, function, verb⟩]) := by
  refine ⟨drain_eq ts s.mMessages s rfl hstop hen, ?_, ?_, ?_⟩ <;>
    intro hd <;> simp [out.print, out.printf, out.write, hd]

/-- C2 witness: on a concrete enabled state with two queued messages the
worker drains them in queue order, and a print appends at the tail. -/
theorem c2_fifo_witness :
    fifoState.mStop = false ∧ fifoState.mEnable = true
    ∧ fifoState.mDisable = false
    ∧ out.drain (fun _ => "") fifoState.mMessages.length fifoState
        = fifoState.mMessages
    ∧ (out.print fifoState 3 "f.cpp" "g" "C" 0 0).mMessages
        = fifoState.mMessages ++ [⟨"C", fifoState.mDefaultTimestamp,
            fifoState.mDefaultLocation, true, true, 0, 3, "f.cpp", "g", 0⟩] :=
  ⟨rfl, rfl, rfl,
    (c2_fifo (fun _ => "") fifoState rfl rfl 3 "f.cpp" "g" "C" 0 0
      true true true true).1,
    (c2_fifo (fun _ => "") fifoState rfl rfl 3 "f.cpp" "g" "C" 0 0
      true true true true).2.1 rfl⟩

/-- C3: for a processed message, the console receives the rendered string
exactly when the message's os flag and mEnableOS both hold, and the file
receives it exactly when the message's ofs flag, mEnableOFS and an open
file all hold. -/
theorem c3_sink_gating (ts : Nat → String) (s : out) (c : container)
    (rest : List container) (hstop : s.mStop = false) (hen : s.mEnable = true)
    (hq : s.mMessages = c :: rest) :
    stepConsole (out.workerStep ts s)
      = (if c.os && s.mEnableOS then some (out.render ts s c) else none)
    ∧ stepFile (out.workerStep ts s)
      = (if c.ofs && s.mEnableOFS && s.ofsOpen then some (out.render ts s c)
          else none)
    ∧ (stepConsole (out.workerStep ts s) ≠ none
        ↔ (c.os && s.mEnableOS) = true)
    ∧ (stepFile (out.workerStep ts s) ≠ none
        ↔ (c.ofs && s.mEnableOFS && s.ofsOpen) = true) := by
  have hstep := workerStep_processing ts s c rest hstop hen hq
  have hC : stepConsole (out.workerStep ts s)
      = (if c.os && s.mEnableOS then some (out.render ts s c) else none) := by
    rw [hstep]; rfl
  have hF : stepFile (out.workerStep ts s)
      = (if c.ofs && s.mEnableOFS && s.ofsOpen then some (out.render ts s c)
          else none) := by
    rw [hstep]; rfl
  refine ⟨hC, hF, ?_, ?_⟩
  · rw [hC]; split <;> simp_all
  · rw [hF]; split <;> simp_all

/-- C3 witness: spec scenario B at a concrete state — a message with
toConsole true and toFile false, while only the file sink is enabled,
writes nothing to either sink. -/
theorem c3_sink_gating_witness :
    sinkState.mStop = false ∧ sinkState.mEnable = true
    ∧ sinkState.mMessages = sinkMsg :: []
    ∧ stepConsole (out.workerStep (fun _ => "") sinkState) = none
    ∧ stepFile (out.workerStep (fun _ => "") sinkState) = none
    ∧ stepConsole (out.workerStep (fun _ => "") sinkState)
        = (if sinkMsg.os && sinkState.mEnableOS
            then some (out.render (fun _ => "") sinkState sinkMsg) else none)
    ∧ stepFile (out.workerStep (fun _ => "") sinkState)
        = (if sinkMsg.ofs && sinkState.mEnableOFS && sinkState.ofsOpen
            then some (out.render (fun _ => "") sinkState sinkMsg) else none) :=
  ⟨rfl, rfl, rfl, rfl, rfl,
    (c3_sink_gating (fun _ => "") sinkState sinkMsg [] rfl rfl rfl).1,
    (c3_sink_gating (fun _ => "") sinkState sinkMsg [] rfl rfl rfl).2.1⟩

/-- C4: every string a worker iteration writes (to either sink) equals the
optional timestamp segment, then the optional file:function:line segment,
then the payload, then the optional newline, each segment present exactly
when its flag is set. -/
theorem c4_render_format (ts : Nat → String) (s : out) (c : container)
    (rest : List container) (hstop : s.mStop = false) (hen : s.mEnable = true)
    (hq : s.mMessages = c :: rest) (o : String)
    (ho : stepConsole (out.workerStep ts s) = some o
          ∨ stepFile (out.workerStep ts s) = some o) :
    o = (if c.printTimestamp then ts c.time ++ " - " else "")
        ++ (if c.printLocation then
              c.file ++ ":" ++ c.function ++ ":" ++ toString c.line ++ "\t - "
            else "")
        ++ c.str
        ++ (if s.mNewline then "\n" else "") := by
  have hstep := workerStep_processing ts s c rest hstop hen hq
  rw [hstep] at ho
  have hr : out.render ts s c
      = (if c.printTimestamp then ts c.time ++ " - " else "")
        ++ (if c.printLocation then
              c.file ++ ":" ++ c.function ++ ":" ++ toString c.line ++ "\t - "
            else "")
        ++ c.str
        ++ (if s.mNewline then "\n" else "") := by
    unfold out.render
    cases hT : c.printTimestamp <;> cases hL : c.printLocation <;>
      cases hN : s.mNewline <;>
      simp [hT, hL, hN, String.empty_append, String.append_assoc]
  rcases ho with h1 | h1 <;>
    simp only [stepConsole, stepFile] at h1 <;>
    split at h1 <;>
    first
      | (injection h1 with h1; rw [← h1]; exact hr)
      | exact absurd h1 (by simp)

/-- C4 witness: at a concrete state with every segment enabled the console
receives timestamp, location, payload and newline in the specified shape. -/
theorem c4_render_format_witness :
    renderState.mStop = false ∧ renderState.mEnable = true
    ∧ renderState.mMessages = renderMsg :: []
    ∧ stepConsole (out.workerStep (fun _ => "TS") renderState)
        = some ("TS - " ++ "r.cpp:foo:17\t - " ++ "payload" ++ "\n")
    ∧ ("TS - " ++ "r.cpp:foo:17\t - " ++ "payload" ++ "\n")
        = (if renderMsg.printTimestamp
            then (fun _ : Nat => "TS") renderMsg.time ++ " - " else "")
          ++ (if renderMsg.printLocation then
                renderMsg.file ++ ":" ++ renderMsg.function ++ ":"
                  ++ toString renderMsg.line ++ "\t - "
              else "")
          ++ renderMsg.str
          ++ (if renderState.mNewline then "\n" else "") :=
  ⟨rfl, rfl, rfl, by decide,
    c4_render_format (fun _ => "TS") renderState renderMsg [] rfl rfl rfl
      ("TS - " ++ "r.cpp:foo:17\t - " ++ "payload" ++ "\n")
      (Or.inl (by decide))⟩

/-- C5: shutdown is idempotent; afterwards the pending count is 0, the
file is closed, and every enqueue operation (print, printf, write) returns
the state unchanged, so the count stays 0. -/
theorem c5_shutdown_idempotent_final (s : out) (line : Int)
    (file function txt : String) (pT pL os ofs : Bool) (verb now : Nat) :
    out.shutdown (out.shutdown s) = out.shutdown s
    ∧ out.remainingMessages (out.shutdown s) = 0
    ∧ (out.shutdown s).ofsOpen = false
    ∧ out.print (out.shutdown s) line file function txt verb now
        = out.shutdown s
    ∧ out.printf (out.shutdown s) line file function txt verb now
        = out.shutdown s
    ∧ out.write (out.shutdown s) line file function pT pL os ofs txt verb now
        = out.shutdown s := by
  refine ⟨rfl, rfl, rfl, ?_, ?_, ?_⟩ <;>
    simp [out.print, out.printf, out.write, out.shutdown]

/-- C6: with no open log file, enabling the file sink has no effect —
mEnableOFS is forced to false and ofsEnabled stays false (it was already
false before the call, since it requires an open file). -/
theorem c6_ofsEnable_noop (s : out) (h : s.ofsOpen = false) :
    out.ofsEnabled s = false
    ∧ (out.ofsEnable s true).mEnableOFS = false
    ∧ out.ofsEnabled (out.ofsEnable s true) = false := by
  simp [out.ofsEnabled, out.ofsEnable, h]

/-- C6 witness: on a freshly constructed logger whose file failed to open,
ofsEnable true leaves ofsEnabled false. -/
theorem c6_ofsEnable_noop_witness :
    (out.construct false false 0).ofsOpen = false
    ∧ out.ofsEnabled (out.construct false false 0) = false
    ∧ (out.ofsEnable (out.construct false false 0) true).mEnableOFS = false
    ∧ out.ofsEnabled (out.ofsEnable (out.construct false false 0) true)
        = false :=
  ⟨rfl, c6_ofsEnable_noop (out.construct false false 0) rfl⟩

/-- C7: disable and enable(false) leave the queue untouched, the worker
dequeues nothing while the master switch is false (and no stop is pending),
enqueues still append while disabled, and re-enabling finds every message
still pending. -/
theorem c7_disable_frame (ts : Nat → String) (s : out) (line : Int)
    (file function txt : String) (verb now : Nat)
    (hstop : s.mStop = false) :
    (out.disable s).mMessages = s.mMessages
    ∧ (out.enable s false).mMessages = s.mMessages
    ∧ (out.enable (out.disable s) true).mMessages = s.mMessages
    ∧ out.workerStep ts (out.disable s) = none
    ∧ (s.mDisable = false →
        (out.print (out.disable s) line file function txt verb now).mMessages
          = s.mMessages ++ [⟨txt, s.mDefaultTimestamp, s.mDefaultLocation,
              true, true, now, line, file, function, verb⟩]) := by
  refine ⟨rfl, rfl, rfl, ?_, ?_⟩
  · simp [out.workerStep, out.disable, hstop]
  · intro hd
    simp [out.print, out.disable, hd]

/-- C7 witness: on a concrete running state with two queued messages,
disabling leaves both in the queue, blocks the worker, still accepts a new
enqueue at the tail, and re-enabling finds the queue intact. -/
theorem c7_disable_frame_witness :
    fifoState.mStop = false ∧ fifoState.mDisable = false
    ∧ (out.disable fifoState).mMessages = fifoState.mMessages
    ∧ (out.enable fifoState false).mMessages = fifoState.mMessages
    ∧ (out.enable (out.disable fifoState) true).mMessages
        = fifoState.mMessages
    ∧ out.workerStep (fun _ => "") (out.disable fifoState) = none
    ∧ (out.print (out.disable fifoState) 4 "f.cpp" "g" "D" 0 0).mMessages
        = fifoState.mMessages ++ [⟨"D", fifoState.mDefaultTimestamp,
            fifoState.mDefaultLocation, true, true, 0, 4, "f.cpp", "g", 0⟩] :=
  ⟨rfl, rfl,
    (c7_disable_frame (fun _ => "") fifoState 4 "f.cpp" "g" "D" 0 0 rfl).1,
    (c7_disable_frame (fun _ => "") fifoState 4 "f.cpp" "g" "D" 0 0 rfl).2.1,
    (c7_disable_frame (fun _ => "") fifoState 4 "f.cpp" "g" "D" 0 0 rfl).2.2.1,
    (c7_disable_frame (fun _ => "") fifoState 4 "f.cpp" "g" "D" 0 0 rfl).2.2.2.1,
    (c7_disable_frame (fun _ => "") fifoState 4 "f.cpp" "g" "D" 0 0 rfl).2.2.2.2
      rfl⟩

/-- C8: with a stop request pending the worker exits at once — the
iteration reports stopped, writes nothing to either sink, and no successor
state arises (no message is popped), regardless of the queue contents and
the enable flags. -/
theorem c8_stop_immediate (ts : Nat → String) (s : out)
    (h : s.mStop = true) :
    out.workerStep ts s = some StepResult.stopped
    ∧ stepConsole (out.workerStep ts s) = none
    ∧ stepFile (out.workerStep ts s) = none
    ∧ stepNext (out.workerStep ts s) = none := by
  have hw : out.workerStep ts s = some StepResult.stopped := by
    unfold out.workerStep
    rw [h]
    simp
  rw [hw]
  exact ⟨rfl, rfl, rfl, rfl⟩

/-- C8 witness: a stop request with five messages queued and the logger
fully enabled still exits immediately, delivering nothing. -/
theorem c8_stop_immediate_witness :
    stopState.mStop = true ∧ stopState.mEnable = true
    ∧ stopState.mMessages.length = 5
    ∧ out.workerStep (fun _ => "") stopState = some StepResult.stopped
    ∧ stepConsole (out.workerStep (fun _ => "") stopState) = none
    ∧ stepFile (out.workerStep (fun _ => "") stopState) = none
    ∧ stepNext (out.workerStep (fun _ => "") stopState) = none :=
  ⟨rfl, rfl, rfl, c8_stop_immediate (fun _ => "") stopState rfl⟩

/-- C9: in every reachable state getLogFilename returns the empty string
(the filename field is never assigned anywhere) and clears mEnableOFS, so
ofsEnabled reads false afterwards. -/
theorem c9_getLogFilename (s : out) (h : Reachable s) :
    (out.getLogFilename s).fst = ""
    ∧ (out.getLogFilename s).snd.mEnableOFS = false
    ∧ out.ofsEnabled (out.getLogFilename s).snd = false := by
  refine ⟨reachable_logFilename s h, rfl, ?_⟩
  simp [out.ofsEnabled, out.getLogFilename]

/-- C9 witness: on a freshly constructed logger (a reachable state) the
filename read is empty and the file sink reads disabled afterwards. -/
theorem c9_getLogFilename_witness :
    Reachable (out.construct true false 0)
    ∧ (out.getLogFilename (out.construct true false 0)).fst = ""
    ∧ (out.getLogFilename (out.construct true false 0)).snd.mEnableOFS = false
    ∧ out.ofsEnabled (out.getLogFilename (out.construct true false 0)).snd
        = false :=
  ⟨Reachable.construct true false 0,
    c9_getLogFilename (out.construct true false 0)
      (Reachable.construct true false 0)⟩

/-- C10: immediately after construction the master switch and both sink
switches read false, the default timestamp/location flags are true, flush
is true, newline is false, and the worker delivers nothing: it is blocked
both on the fresh state and after an enqueue, since mEnable is false. -/
theorem c10_initial_state (openOK d : Bool) (v : Nat) (ts : Nat → String)
    (line : Int) (file function txt : String) (verb now : Nat) :
    out.enabled (out.construct openOK d v) = false
    ∧ out.osEnabled (out.construct openOK d v) = false
    ∧ out.ofsEnabled (out.construct openOK d v) = false
    ∧ (out.construct openOK d v).mDefaultTimestamp = true
    ∧ (out.construct openOK d v).mDefaultLocation = true
    ∧ (out.construct openOK d v).mFlush = true
    ∧ (out.construct openOK d v).mNewline = false
    ∧ out.workerStep ts (out.construct openOK d v) = none
    ∧ out.workerStep ts
        (out.print (out.construct openOK d v) line file function txt verb now)
        = none := by
  refine ⟨rfl, rfl, ?_, rfl, rfl, rfl, rfl, ?_, ?_⟩
  · simp [out.ofsEnabled, out.construct]
  · simp [out.workerStep, out.construct]
  · unfold out.print
    split <;> simp [out.workerStep, out.construct]

end DBG
